import Mathlib

/-
Verification development for the Shopify weekly channel-performance reporter
(new_shpify_report.py).  The Python functions are shallowly embedded as Lean
definitions: dates are day numbers (days since 1970-01-01, an integer), money
values are rationals, pandas cells are a small `PyVal` type (None, float NaN,
or a string), and the orchestrator's effects are made explicit (the ambient
wall-clock date and the acquisition of a week's CSV become parameters).
String primitives (strip, lower, single-character removal) are implemented
over character lists at the ASCII level, matching Python's behaviour on all
the data this program compares.
-/

set_option maxHeartbeats 1000000

/-- A pandas/Python cell value as the script sees it: Python `None`, a float
`NaN` (what pandas stores for a missing cell), or a string. -/
inductive PyVal where
  | none
  | nanFloat
  | str (s : String)
deriving DecidableEq

/-- Python `str(x)` on a cell: `str(None) = "None"`, `str(nan) = "nan"`. -/
def pyStr : PyVal → String
  | PyVal.none => "None"
  | PyVal.nanFloat => "nan"
  | PyVal.str s => s

/-- ASCII whitespace, the characters Python's `str.strip()` removes on the
data this program handles. -/
def isSpaceChar (c : Char) : Bool :=
  c = ' ' ∨ c = '\t' ∨ c = '\n' ∨ c = '\r' ∨ c = '\x0b' ∨ c = '\x0c'

/-- ASCII lower-casing of one character, as Python `str.lower()` does on
ASCII letters. -/
def charLower (c : Char) : Char :=
  if 'A' ≤ c ∧ c ≤ 'Z' then Char.ofNat (c.toNat + 32) else c

/-- Python `str.lower()` (ASCII fragment). -/
def pyLower (s : String) : String := String.mk (s.data.map charLower)

/-- Python `str.strip()` (ASCII whitespace fragment). -/
def pyStrip (s : String) : String :=
  String.mk (((s.data.dropWhile isSpaceChar).reverse.dropWhile isSpaceChar).reverse)

/-- Python `str.replace(c, "")` for a one-character pattern: drop every
occurrence of `c`. -/
def removeChar (c : Char) (s : String) : String :=
  String.mk (s.data.filter (fun d => d ≠ c))

/-- `safe_lower` from the source: None and NaN become `""`, anything else is
`str(x).strip().lower()`. -/
def safe_lower : PyVal → String
  | PyVal.none => ""
  | PyVal.nanFloat => ""
  | PyVal.str s => pyLower (pyStrip s)

/-- Value of a list of decimal digit characters (most significant first). -/
def digitsToNat (ds : List Char) : Nat :=
  ds.foldl (fun a c => a * 10 + (c.toNat - 48)) 0

/-- Decimal-literal parser underlying the `float()` model: a successful parse
is `(m, e)` with value `m * 10 ^ e` (optional sign, digits with an optional
fractional part, optional exponent). -/
def pyParse? (s : String) : Option (ℤ × ℤ) :=
  let cs := s.data
  let sgn : ℤ := match cs with
    | '-' :: _ => -1
    | _ => 1
  let cs1 : List Char := match cs with
    | '-' :: t => t
    | '+' :: t => t
    | _ => cs
  let ip := cs1.takeWhile Char.isDigit
  let r1 := cs1.dropWhile Char.isDigit
  let fp : List Char := match r1 with
    | '.' :: t => t.takeWhile Char.isDigit
    | _ => []
  let r2 : List Char := match r1 with
    | '.' :: t => t.dropWhile Char.isDigit
    | _ => r1
  if ip.isEmpty && fp.isEmpty then Option.none
  else
    let m : ℤ := sgn * ((digitsToNat ip : ℤ) * (10 : ℤ) ^ fp.length + (digitsToNat fp : ℤ))
    let e0 : ℤ := -(fp.length : ℤ)
    match r2 with
    | [] => some (m, e0)
    | e :: t =>
      if e = 'e' ∨ e = 'E' then
        let esgn : ℤ := match t with
          | '-' :: _ => -1
          | _ => 1
        let t1 : List Char := match t with
          | '-' :: u => u
          | '+' :: u => u
          | _ => t
        let ed := t1.takeWhile Char.isDigit
        let rest := t1.dropWhile Char.isDigit
        if ed.isEmpty ∨ rest ≠ [] then Option.none
        else some (m, e0 + esgn * (digitsToNat ed : ℤ))
      else Option.none

/-- The rational a parse result denotes. -/
def ratOfParse (p : ℤ × ℤ) : ℚ := (p.1 : ℚ) * (10 : ℚ) ^ p.2

/-- Model of CPython `float(s)` restricted to finite decimal literals.
Literals denoting non-finite floats ("inf"/"nan" spellings) and underscore
digit separators lie outside the rational model and yield `Option.none`,
which `to_number` turns into `0.0` exactly like an unparsable string. -/
def pyFloat? (s : String) : Option ℚ := (pyParse? s).map ratOfParse

/-- `to_number` from the source: the tolerant numeric parser.  `None → 0`,
then `s = str(x).strip()`; the sentinel strings map to 0, `$` and `,` are
stripped, and anything `float()` rejects maps to 0. -/
def to_number (x : PyVal) : ℚ :=
  match x with
  | PyVal.none => 0
  | _ =>
    let s := pyStrip (pyStr x)
    if s = "" ∨ s = "—" ∨ s = "-" ∨ s = "nan" ∨ s = "None" then 0
    else
      match pyFloat? (removeChar ',' (removeChar '$' s)) with
      | some q => q
      | Option.none => 0

/-- `bucket_row` from the source: the seven-rule channel classifier, first
match wins, returning the bucket's column label. -/
def bucket_row (ref_platform channel typ : PyVal) : String :=
  if safe_lower channel = "direct" ∨ safe_lower ref_platform = "direct" then
    "Direct Website Sales (Organic)"
  else if safe_lower channel = "google" ∧ safe_lower typ = "paid" then
    "Google ads (Sales)"
  else if safe_lower channel = "google" ∧ safe_lower typ = "organic" then
    "Google Search (Organic Sales)"
  else if safe_lower channel = "attentive" ∨ safe_lower ref_platform = "attentive" then
    "Attentive SMS (Sales)"
  else if safe_lower channel = "privy" ∨ safe_lower ref_platform = "privy" then
    "Privey Email Marketing (Sales)"
  else if safe_lower channel = "activecampaign" ∨ safe_lower ref_platform = "activecampaign" then
    "ActiveCampaign (Sales)"
  else "Other Channel Sales MISC"

/-- The seven canonical buckets, as the spec names them. -/
inductive Bucket where
  | DirectOrganic
  | GoogleAdsPaid
  | GoogleOrganic
  | AttentiveSMS
  | PriveyEmail
  | ActiveCampaign
  | OtherMisc
deriving DecidableEq

/-- Modelled from the spec: field normalization for classification —
case-insensitive, whitespace-trimmed comparison, absent/null treated as the
empty string. -/
def normField : PyVal → String
  | PyVal.none => ""
  | PyVal.nanFloat => ""
  | PyVal.str s => pyLower (pyStrip s)

/-- Modelled from the spec: the seven-rule reference classifier `classify`,
precedence order as written in the spec (first match wins). -/
def classify_spec (rp ch ty : PyVal) : Bucket :=
  if normField ch = "direct" ∨ normField rp = "direct" then Bucket.DirectOrganic
  else if normField ch = "google" ∧ normField ty = "paid" then Bucket.GoogleAdsPaid
  else if normField ch = "google" ∧ normField ty = "organic" then Bucket.GoogleOrganic
  else if normField ch = "attentive" ∨ normField rp = "attentive" then Bucket.AttentiveSMS
  else if normField ch = "privy" ∨ normField rp = "privy" then Bucket.PriveyEmail
  else if normField ch = "activecampaign" ∨ normField rp = "activecampaign" then Bucket.ActiveCampaign
  else Bucket.OtherMisc

/-- The source's column label for each spec bucket. -/
def bucketLabel : Bucket → String
  | Bucket.DirectOrganic => "Direct Website Sales (Organic)"
  | Bucket.GoogleAdsPaid => "Google ads (Sales)"
  | Bucket.GoogleOrganic => "Google Search (Organic Sales)"
  | Bucket.AttentiveSMS => "Attentive SMS (Sales)"
  | Bucket.PriveyEmail => "Privey Email Marketing (Sales)"
  | Bucket.ActiveCampaign => "ActiveCampaign (Sales)"
  | Bucket.OtherMisc => "Other Channel Sales MISC"

/-- `week_start_for` from the source: the calendar-week anchor containing day
`d` for week-start convention `ws` (0 = Monday).  Day numbers count from
1970-01-01, a Thursday, so Python's `date.weekday()` is `(d + 3) % 7`;
Python's `%` on a positive modulus is `Int.emod`. -/
def week_start_for (d ws : ℤ) : ℤ := d - (((d + 3).emod 7 - ws).emod 7)

/-- The loop body of `iter_weeks`, with a fuel argument bounding the number
of iterations; each iteration advances `cur` by at least one day, so
`(untl + 1 - since).toNat` iterations always suffice (the last-end theorem
below shows the fuel never runs out early). -/
def iterWeeksGo (ws untl : ℤ) : Nat → ℤ → List (ℤ × ℤ)
  | 0, _ => []
  | Nat.succ n, cur =>
    if cur ≤ untl then
      (cur, min (week_start_for cur ws + 6) untl) ::
        iterWeeksGo ws untl n (min (week_start_for cur ws + 6) untl + 1)
    else []

/-- `iter_weeks` from the source: inclusive `(start, end)` ranges aligned to
`ws`, clipped to `[since, untl]`. -/
def iter_weeks (since untl ws : ℤ) : List (ℤ × ℤ) :=
  iterWeeksGo ws untl (untl + 1 - since).toNat since

/-- Day number → `(year, month, day)` in the proleptic Gregorian calendar
(Hinnant's `civil_from_days`; all divisions floor on non-negative operands,
which Lean's `Int` division matches). -/
def civil (days : ℤ) : ℤ × ℤ × ℤ :=
  let z := days + 719468
  let era := z / 146097
  let doe := z - era * 146097
  let yoe := (doe - doe / 1460 + doe / 36524 - doe / 146096) / 365
  let y := yoe + era * 400
  let doy := doe - (365 * yoe + yoe / 4 - yoe / 100)
  let mp := (5 * doy + 2) / 153
  let d := doy - (153 * mp + 2) / 5 + 1
  let m := mp + (if mp < 10 then 3 else -9)
  (y + (if m ≤ 2 then 1 else 0), m, d)

/-- `strftime("%B")`: the English month name. -/
def monthName (m : ℤ) : String :=
  if m = 1 then "January" else if m = 2 then "February" else if m = 3 then "March"
  else if m = 4 then "April" else if m = 5 then "May" else if m = 6 then "June"
  else if m = 7 then "July" else if m = 8 then "August" else if m = 9 then "September"
  else if m = 10 then "October" else if m = 11 then "November" else "December"

/-- Two-digit zero padding. -/
def pad2 (n : ℤ) : String := if n < 10 then "0" ++ toString n else toString n

/-- Four-digit zero padding (ISO year). -/
def pad4 (n : ℤ) : String :=
  if n < 10 then "000" ++ toString n else if n < 100 then "00" ++ toString n
  else if n < 1000 then "0" ++ toString n else toString n

/-- `date.isoformat()` on a day number. -/
def isoDate (z : ℤ) : String :=
  pad4 (civil z).1 ++ "-" ++ pad2 (civil z).2.1 ++ "-" ++ pad2 (civil z).2.2

/-- `format_date_range` from the source: `M/D-M/D`, no leading zeros. -/
def format_date_range (s e : ℤ) : String :=
  toString (civil s).2.1 ++ "/" ++ toString (civil s).2.2 ++ "-" ++
    toString (civil e).2.1 ++ "/" ++ toString (civil e).2.2

/-- Round to the nearest integer, ties to even — Python's `round`. -/
def roundHalfEven (q : ℚ) : ℤ :=
  if q - ⌊q⌋ < 1 / 2 then ⌊q⌋
  else if 1 / 2 < q - ⌊q⌋ then ⌊q⌋ + 1
  else if ⌊q⌋ % 2 = 0 then ⌊q⌋ else ⌊q⌋ + 1

/-- Python `round(x, 2)` on the rational model. -/
def round2 (q : ℚ) : ℚ := (roundHalfEven (q * 100) : ℚ) / 100

/-- Python `round(x, 4)` on the rational model. -/
def round4 (q : ℚ) : ℚ := (roundHalfEven (q * 10000) : ℚ) / 10000

/-- One raw exported record: the five columns the summarizer reads. -/
structure RawRow where
  rp : PyVal
  ch : PyVal
  ty : PyVal
  sales : PyVal
  cost : PyVal
deriving DecidableEq

/-- pandas NaN test (missing cell). -/
def isNa : PyVal → Bool
  | PyVal.none => true
  | PyVal.nanFloat => true
  | PyVal.str _ => false

/-- The row's cells, in column order (the cost column only when present). -/
def rowFields (hasCost : Bool) (r : RawRow) : List PyVal :=
  [r.rp, r.ch, r.ty, r.sales] ++ (if hasCost then [r.cost] else [])

/-- The source's blank-row filter: `dropna(how="all")` removes rows whose
cells are all NaN, then rows where every cell's string strips to `""` are
removed. -/
def keepRow (hasCost : Bool) (r : RawRow) : Bool :=
  (!(rowFields hasCost r).all isNa) &&
    ((rowFields hasCost r).any (fun f => !(pyStrip (pyStr f) == "")))

/-- Rows surviving the blank-row filter. -/
def cleanRows (hasCost : Bool) (rows : List RawRow) : List RawRow :=
  rows.filter (keepRow hasCost)

/-- The `_sales` column: `to_number` of the sales cell. -/
def rowSales (r : RawRow) : ℚ := to_number r.sales

/-- The `_cost` column: `to_number` of the cost cell, or 0.0 when the CSV has
no cost column. -/
def rowCost (hasCost : Bool) (r : RawRow) : ℚ :=
  if hasCost then to_number r.cost else 0

/-- The `_bucket` column. -/
def bucketOf (r : RawRow) : String := bucket_row r.rp r.ch r.ty

/-- `df["_sales"].sum()`. -/
def sumSales (rs : List RawRow) : ℚ := (rs.map rowSales).sum

/-- `df["_cost"].sum()`. -/
def sumCost (hasCost : Bool) (rs : List RawRow) : ℚ :=
  (rs.map (rowCost hasCost)).sum

/-- Group-sum of sales for one bucket (`groupby("_bucket")`, with a missing
group read back as 0.0). -/
def salesBy (rs : List RawRow) (b : String) : ℚ :=
  sumSales (rs.filter (fun r => bucketOf r == b))

/-- Group-sum of cost for one bucket. -/
def costBy (hasCost : Bool) (rs : List RawRow) (b : String) : ℚ :=
  sumCost hasCost (rs.filter (fun r => bucketOf r == b))

/-- The `_name` column of `build_misc_notes`:
`f"{str(channel).strip()} ({str(type).strip()})"`. -/
def miscName (r : RawRow) : String :=
  pyStrip (pyStr r.ch) ++ " (" ++ pyStrip (pyStr r.ty) ++ ")"

/-- Insertion step of the sorting used to model pandas sorts. -/
def insertBy {α : Type} (le : α → α → Bool) (a : α) : List α → List α
  | [] => [a]
  | b :: t => if le a b then a :: b :: t else b :: insertBy le a t

/-- Insertion sort by a boolean comparison; pandas leaves the order of ties
unspecified, so any sort consistent with the comparison is a faithful model. -/
def sortBy {α : Type} (le : α → α → Bool) : List α → List α
  | [] => []
  | a :: t => insertBy le a (sortBy le t)

/-- Ascending string comparison (`groupby` sorts its group keys). -/
def strLe (a b : String) : Bool := decide (a ≤ b)

/-- Descending-by-sales comparison (`sort_values("_sales", ascending=False)`). -/
def salesDescLe (a b : String × ℚ) : Bool := decide (b.2 ≤ a.2)

/-- `groupby("_name")["_sales"].sum()`: each distinct `_name` with its summed
sales, keys in ascending order. -/
def miscGroups (rs : List RawRow) : List (String × ℚ) :=
  (sortBy strLe (rs.map miscName).dedup).map
    (fun n => (n, ((rs.filter (fun r => miscName r == n)).map rowSales).sum))

/-- `grouped.sort_values descending .head(12)`. -/
def miscTop (rs : List RawRow) : List (String × ℚ) :=
  (sortBy salesDescLe (miscGroups rs)).take 12

/-- The entries kept for the notes: positive-sales groups of the top 12. -/
def miscKept (rs : List RawRow) : List (String × ℚ) :=
  (miscTop rs).filter (fun p => decide (0 < p.2))

/-- Split a reversed digit list into groups of three (low-order first). -/
def chunk3 : List Char → List (List Char)
  | [] => []
  | a :: b :: c :: rest => [a, b, c] :: chunk3 rest
  | l => [l]

/-- Insert `,` thousands separators into a digit string. -/
def groupThousands (s : String) : String :=
  String.intercalate "," (((chunk3 s.data.reverse).map (fun c => String.mk c.reverse)).reverse)

/-- Python `f"{x:,.2f}"`: two decimals, half-to-even, comma separators. -/
def renderMoney (q : ℚ) : String :=
  let cents := roundHalfEven (q * 100)
  (if cents < 0 then "-" else "") ++ groupThousands (toString (cents.natAbs / 100)) ++
    "." ++ pad2 ((cents.natAbs : ℤ) % 100)

/-- `build_misc_notes` from the source, on the OtherMisc rows: group by
`_name`, sum sales, sort descending, keep the top 12, then append only the
positive-sales entries, pipe-joined.  (The source's early return on an empty
frame also yields `""` here.) -/
def build_misc_notes (rs : List RawRow) : String :=
  String.intercalate " | " ((miscKept rs).map (fun p => p.1 ++ " $" ++ renderMoney p.2))

/-- One summary row, fields in the source's column order. -/
structure SummaryRow where
  month : String
  datesWeek : String
  directSales : ℚ
  googleAdsSales : ℚ
  googleOrganicSales : ℚ
  attentiveSales : ℚ
  priveySales : ℚ
  activeCampaignSales : ℚ
  otherMiscSales : ℚ
  totSales : ℚ
  googleAdsCost : ℚ
  priveyCost : ℚ
  attentiveCost : ℚ
  totalCost : ℚ
  gpm : ℚ
  miscNotes : String
  uploadDate : String
  rangeStart : String
  rangeEnd : String
  country : String
deriving DecidableEq

/-- `summarize_channel_csv_to_weekly_row` from the source, over the parsed
raw rows.  The ambient inputs the Python reads from process state are
explicit parameters: `country` (the COUNTRY env var) and `today` (the
wall-clock date behind `datetime.now()`, which fills `Upload_Date`);
`hasCost` says whether the CSV has a cost column. -/
def summarize_channel_csv_to_weekly_row (country : String) (today : ℤ)
    (hasCost : Bool) (rows : List RawRow) (start stop : ℤ) : SummaryRow :=
  let clean := cleanRows hasCost rows
  { month := monthName (civil start).2.1
    datesWeek := format_date_range start stop
    directSales := round2 (salesBy clean "Direct Website Sales (Organic)")
    googleAdsSales := round2 (salesBy clean "Google ads (Sales)")
    googleOrganicSales := round2 (salesBy clean "Google Search (Organic Sales)")
    attentiveSales := round2 (salesBy clean "Attentive SMS (Sales)")
    priveySales := round2 (salesBy clean "Privey Email Marketing (Sales)")
    activeCampaignSales := round2 (salesBy clean "ActiveCampaign (Sales)")
    otherMiscSales := round2 (salesBy clean "Other Channel Sales MISC")
    totSales := round2 (sumSales clean)
    googleAdsCost := round2 (costBy hasCost clean "Google ads (Sales)")
    priveyCost := round2 (costBy hasCost clean "Privey Email Marketing (Sales)")
    attentiveCost := round2 (costBy hasCost clean "Attentive SMS (Sales)")
    totalCost := round2 (sumCost hasCost clean)
    gpm := round4 (if sumSales clean = 0 then 0
      else (sumSales clean - sumCost hasCost clean) / sumSales clean)
    miscNotes := build_misc_notes (clean.filter (fun r => bucketOf r == "Other Channel Sales MISC"))
    uploadDate := isoDate today
    rangeStart := isoDate start
    rangeEnd := isoDate stop
    country := country }

/-- Spreadsheet write mode. -/
inductive Mode where
  | overwrite
  | append
deriving DecidableEq

/-- Failures the run model distinguishes: missing store slug, inverted date
range, and any exception escaping a week's export/summarize/upload body. -/
inductive RunErr where
  | missingConfig
  | invalidRange
  | weekErr (msg : String)
deriving DecidableEq

/-- The per-week loop of `run()` (lines 510-549), faithful to the source's
control flow: the `try` block there contains only the `...` (Ellipsis)
placeholder — a no-op that can never raise — so its `except ... continue`
is dead code, and an exception anywhere in the real week body (navigation,
export, download, summarize, upload) propagates and aborts the whole loop.
`perWeek` is the acquisition+aggregation oracle for one week; the result on
success is (accumulated summary rows, uploads performed as (mode, row)),
and the `overwrite_first` flag is cleared after the first upload. -/
def runLoop (perWeek : ℤ × ℤ → Except RunErr SummaryRow) (uploadToSheet : Bool) :
    Bool → List (ℤ × ℤ) → Except RunErr (List SummaryRow × List (Mode × SummaryRow))
  | _, [] => Except.ok ([], [])
  | overwriteFirst, w :: ws =>
    match perWeek w with
    | Except.error e => Except.error e
    | Except.ok row =>
      match runLoop perWeek uploadToSheet (if uploadToSheet then false else overwriteFirst) ws with
      | Except.error e => Except.error e
      | Except.ok (rows, ups) =>
        Except.ok (row :: rows,
          (if uploadToSheet then [((if overwriteFirst then Mode.overwrite else Mode.append), row)] else []) ++ ups)

/-- `run()` up to its week loop: missing STORE_SLUG is fatal, then
`until < since` is fatal (before any browser/acquisition work), then the
weeks from `iter_weeks` are processed with `overwrite_first` initialized to
`SHEET_MODE == "overwrite"`. -/
def runModel (storeSlug : Option String) (since untl ws : ℤ) (uploadToSheet : Bool)
    (sheetMode : String) (perWeek : ℤ × ℤ → Except RunErr SummaryRow) :
    Except RunErr (List SummaryRow × List (Mode × SummaryRow)) :=
  match storeSlug with
  | Option.none => Except.error RunErr.missingConfig
  | some _ =>
    if untl < since then Except.error RunErr.invalidRange
    else runLoop perWeek uploadToSheet (sheetMode == "overwrite") (iter_weeks since untl ws)

/-- A cell row of the spreadsheet tab: the header row or a data row. -/
inductive SheetCell where
  | header
  | data (r : SummaryRow)
deriving DecidableEq

/-- `upload_df_to_sheet` from the source, as a transformer of the tab's
contents: `overwrite` clears the range and writes header plus rows; `append`
writes header plus rows when cell A1 is empty, else appends the rows only. -/
def upload_df_to_sheet (mode : Mode) (df : List SummaryRow)
    (sheet : List SheetCell) : List SheetCell :=
  match mode with
  | Mode.overwrite => SheetCell.header :: df.map SheetCell.data
  | Mode.append =>
    if sheet.isEmpty then SheetCell.header :: df.map SheetCell.data
    else sheet ++ df.map SheetCell.data

/-- Whether one upload writes a header row to the tab. -/
def writesHeader (mode : Mode) (sheet : List SheetCell) : Bool :=
  match mode with
  | Mode.overwrite => true
  | Mode.append => sheet.isEmpty

/-- How many of a run's uploads (each one summary row) write a header,
starting from a given tab state. -/
def headerWrites : List (Mode × SummaryRow) → List SheetCell → ℕ
  | [], _ => 0
  | (m, r) :: rest, sheet =>
    (if writesHeader m sheet then 1 else 0) + headerWrites rest (upload_df_to_sheet m [r] sheet)

/-- Dropping the `Upload_Date` provenance field of a summary row (used to
compare rows produced by runs on different wall-clock dates). -/
def eraseUploadDate (r : SummaryRow) : SummaryRow := { r with uploadDate := "" }

/-- A two-week scenario for the orchestrator: the acquisition of the week
1970-01-05..1970-01-11 raises a Playwright timeout, the following week
1970-01-12..1970-01-18 exports and summarizes fine (an empty CSV body). -/
def failingPerWeek : ℤ × ℤ → Except RunErr SummaryRow :=
  fun w =>
    if w = (4, 10) then Except.error (RunErr.weekErr "Timeout 180000ms exceeded")
    else Except.ok (summarize_channel_csv_to_weekly_row "US" 20000 true [] w.1 w.2)

/-- A fixed summary row used to instantiate upload scenarios. -/
def sampleRow : SummaryRow :=
  ⟨"January", "1/5-1/11", 0, 0, 0, 0, 0, 0, 0, 0, 0, 0, 0, 0, 0, "",
    "1970-01-01", "1970-01-05", "1970-01-11", "US"⟩

lemma normField_eq_safe_lower (x : PyVal) : normField x = safe_lower x := by
  cases x <;> rfl

lemma round4_zero : round4 0 = 0 := by
  norm_num [round4, roundHalfEven]

lemma week_start_for_bounds (d ws : ℤ) :
    d - 6 ≤ week_start_for d ws ∧ week_start_for d ws ≤ d := by
  unfold week_start_for
  have h0 : 0 ≤ ((d + 3).emod 7 - ws).emod 7 := Int.emod_nonneg _ (by norm_num)
  have h1 : ((d + 3).emod 7 - ws).emod 7 < 7 := Int.emod_lt_of_pos _ (by norm_num)
  omega

lemma iterWeeksGo_stop (ws untl : ℤ) (n : ℕ) (cur : ℤ) (h : untl < cur) :
    iterWeeksGo ws untl n cur = [] := by
  cases n with
  | zero => rfl
  | succ m =>
    unfold iterWeeksGo
    rw [if_neg (by omega)]

lemma iterWeeksGo_spec (ws : ℤ) :
    ∀ (n : ℕ) (untl cur : ℤ), cur ≤ untl → (untl + 1 - cur).toNat ≤ n →
      ((iterWeeksGo ws untl n cur).head?.map Prod.fst = some cur) ∧
      ((iterWeeksGo ws untl n cur).getLast?.map Prod.snd = some untl) ∧
      List.Chain' (fun a b => b.1 = a.2 + 1) (iterWeeksGo ws untl n cur) ∧
      (∀ p ∈ iterWeeksGo ws untl n cur, p.1 ≤ p.2 ∧ p.2 - p.1 ≤ 6) := by
  intro n
  induction n with
  | zero => intro untl cur h1 h2; omega
  | succ n ih =>
    intro untl cur hle hfuel
    have hb := week_start_for_bounds cur ws
    have hcur_e : cur ≤ min (week_start_for cur ws + 6) untl := le_min (by omega) hle
    have he_untl : min (week_start_for cur ws + 6) untl ≤ untl := min_le_right _ _
    have hspan : min (week_start_for cur ws + 6) untl - cur ≤ 6 := by
      have := min_le_left (week_start_for cur ws + 6) untl
      omega
    have hunf : iterWeeksGo ws untl (n + 1) cur =
        (cur, min (week_start_for cur ws + 6) untl) ::
          iterWeeksGo ws untl n (min (week_start_for cur ws + 6) untl + 1) := by
      rw [iterWeeksGo]
      rw [if_pos hle]
    set e := min (week_start_for cur ws + 6) untl with he
    rw [hunf]
    by_cases hstop : untl < e + 1
    · have heu : e = untl := by omega
      have htail : iterWeeksGo ws untl n (e + 1) = [] := iterWeeksGo_stop ws untl n _ hstop
      rw [htail]
      refine ⟨rfl, ?_, ?_, ?_⟩
      · simp [heu]
      · simp
      · intro p hp
        rcases List.mem_singleton.mp hp with rfl
        constructor
        · exact hcur_e
        · exact hspan
    · have h2 : e + 1 ≤ untl := by omega
      have hn2 : (untl + 1 - (e + 1)).toNat ≤ n := by omega
      obtain ⟨hhead, hlast, hchain, hmem⟩ := ih untl (e + 1) h2 hn2
      have hne : iterWeeksGo ws untl n (e + 1) ≠ [] := by
        intro hnil
        rw [hnil] at hhead
        simp at hhead
      obtain ⟨x, xs, hx⟩ := List.exists_cons_of_ne_nil hne
      refine ⟨rfl, ?_, ?_, ?_⟩
      · rw [hx, List.getLast?_cons_cons, ← hx]
        exact hlast
      · rw [hx]
        rw [hx] at hhead hchain
        refine List.chain'_cons.mpr ⟨?_, hchain⟩
        simp only [List.head?_cons, Option.map_some] at hhead
        exact Option.some_injective _ hhead |>.symm ▸ rfl
      · intro p hp
        rcases List.mem_cons.mp hp with rfl | hp2
        · exact ⟨hcur_e, hspan⟩
        · exact hmem p hp2

lemma mem_insertBy {α : Type} (le : α → α → Bool) (a x : α) (l : List α) :
    x ∈ insertBy le a l ↔ x = a ∨ x ∈ l := by
  induction l with
  | nil => simp [insertBy]
  | cons b t ih =>
    unfold insertBy
    by_cases h : le a b = true
    · rw [if_pos h]
      simp only [List.mem_cons]
    · rw [if_neg h]
      simp only [List.mem_cons, ih]
      tauto

lemma mem_sortBy {α : Type} (le : α → α → Bool) (x : α) (l : List α) :
    x ∈ sortBy le l ↔ x ∈ l := by
  induction l with
  | nil => simp [sortBy]
  | cons a t ih =>
    unfold sortBy
    rw [mem_insertBy, ih, List.mem_cons]

lemma pairwise_insertBy {α : Type} {R : α → α → Prop} {le : α → α → Bool}
    (hle : ∀ x y, le x y = true → R x y)
    (hnle : ∀ x y, le x y = false → R y x)
    (htr : ∀ x y z, R x y → R y z → R x z)
    (a : α) (l : List α) (hl : l.Pairwise R) : (insertBy le a l).Pairwise R := by
  induction l with
  | nil => simp [insertBy]
  | cons b t ih =>
    rw [List.pairwise_cons] at hl
    obtain ⟨hbt, hpt⟩ := hl
    unfold insertBy
    by_cases h : le a b = true
    · rw [if_pos h]
      refine List.Pairwise.cons ?_ (List.Pairwise.cons hbt hpt)
      intro x hx
      rcases List.mem_cons.mp hx with rfl | hx2
      · exact hle _ _ h
      · exact htr _ _ _ (hle _ _ h) (hbt _ hx2)
    · rw [if_neg h]
      refine List.Pairwise.cons ?_ (ih hpt)
      intro x hx
      rcases (mem_insertBy le a x t).mp hx with rfl | hx2
      · exact hnle _ _ (by simpa using h)
      · exact hbt _ hx2

lemma pairwise_sortBy {α : Type} {R : α → α → Prop} {le : α → α → Bool}
    (hle : ∀ x y, le x y = true → R x y)
    (hnle : ∀ x y, le x y = false → R y x)
    (htr : ∀ x y z, R x y → R y z → R x z)
    (l : List α) : (sortBy le l).Pairwise R := by
  induction l with
  | nil => simp [sortBy]
  | cons a t ih => exact pairwise_insertBy hle hnle htr a _ ih

lemma mem_miscTop_groups (rs : List RawRow) (p : String × ℚ) (hp : p ∈ miscTop rs) :
    p ∈ miscGroups rs := by
  have h1 : p ∈ sortBy salesDescLe (miscGroups rs) := List.take_subset _ _ hp
  exact (mem_sortBy _ _ _).mp h1

lemma runLoop_nil_ups (perWeek : ℤ × ℤ → Except RunErr SummaryRow) (u ovf : Bool)
    (rows : List SummaryRow) (ups : List (Mode × SummaryRow))
    (h : runLoop perWeek u ovf [] = Except.ok (rows, ups)) : ups = [] := by
  simp only [runLoop] at h
  cases h
  rfl

lemma runLoop_append_only (perWeek : ℤ × ℤ → Except RunErr SummaryRow) (u : Bool)
    (weeks : List (ℤ × ℤ)) :
    ∀ (rows : List SummaryRow) (ups : List (Mode × SummaryRow)),
      runLoop perWeek u false weeks = Except.ok (rows, ups) →
      ∀ p ∈ ups, p.1 = Mode.append := by
  induction weeks with
  | nil =>
    intro rows ups h p hp
    rw [runLoop_nil_ups perWeek u false rows ups h] at hp
    simp at hp
  | cons w t ih =>
    intro rows ups h p hp
    cases hpw : perWeek w with
    | error e =>
      simp only [runLoop, hpw] at h
      simp at h
    | ok row =>
      simp only [runLoop, hpw, ite_self] at h
      cases hrec : runLoop perWeek u false t with
      | error e =>
        rw [hrec] at h
        simp at h
      | ok pr =>
        obtain ⟨rows2, ups2⟩ := pr
        rw [hrec] at h
        simp only [Except.ok.injEq, Prod.mk.injEq] at h
        obtain ⟨h1, h2⟩ := h
        subst h2
        rcases List.mem_append.mp hp with hp1 | hp2
        · cases u with
          | false => simp at hp1
          | true =>
            simp only [if_true] at hp1
            simp at hp1
            rw [hp1]
        · exact ih rows2 ups2 hrec p hp2

lemma runLoop_uploads_shape (perWeek : ℤ × ℤ → Except RunErr SummaryRow) (ovf : Bool)
    (weeks : List (ℤ × ℤ)) (rows : List SummaryRow) (ups : List (Mode × SummaryRow))
    (h : runLoop perWeek true ovf weeks = Except.ok (rows, ups)) :
    ups = [] ∨ ∃ r tail, ups = ((if ovf then Mode.overwrite else Mode.append), r) :: tail ∧
      ∀ p ∈ tail, p.1 = Mode.append := by
  cases weeks with
  | nil => exact Or.inl (runLoop_nil_ups perWeek true ovf rows ups h)
  | cons w t =>
    right
    cases hpw : perWeek w with
    | error e =>
      simp only [runLoop, hpw] at h
      simp at h
    | ok row =>
      simp only [runLoop, hpw, if_true] at h
      cases hrec : runLoop perWeek true false t with
      | error e =>
        rw [hrec] at h
        simp at h
      | ok pr =>
        obtain ⟨rows2, ups2⟩ := pr
        rw [hrec] at h
        simp only [Except.ok.injEq, Prod.mk.injEq] at h
        obtain ⟨h1, h2⟩ := h
        refine ⟨row, ups2, ?_, ?_⟩
        · rw [← h2]
          simp
        · exact runLoop_append_only perWeek true t rows2 ups2 hrec

lemma upload_ne_nil (m : Mode) (r : SummaryRow) (sheet : List SheetCell) :
    upload_df_to_sheet m [r] sheet ≠ [] := by
  cases m with
  | overwrite => simp [upload_df_to_sheet]
  | append =>
    simp only [upload_df_to_sheet]
    by_cases h : sheet.isEmpty
    · rw [if_pos h]; simp
    · rw [if_neg h]; simp

lemma headerWrites_append_only (ups : List (Mode × SummaryRow))
    (hall : ∀ p ∈ ups, p.1 = Mode.append) :
    ∀ sheet : List SheetCell, sheet ≠ [] → headerWrites ups sheet = 0 := by
  induction ups with
  | nil => intro sheet hne; rfl
  | cons u t ih =>
    intro sheet hne
    obtain ⟨m, r⟩ := u
    have hm : m = Mode.append := hall _ (List.mem_cons_self _ _)
    subst hm
    have hie : sheet.isEmpty = false := by
      cases sheet with
      | nil => exact absurd rfl hne
      | cons a l => rfl
    simp only [headerWrites, writesHeader, hie, if_false]
    have hnext : upload_df_to_sheet Mode.append [r] sheet ≠ [] := upload_ne_nil _ _ _
    rw [ih (fun p hp => hall p (List.mem_cons_of_mem _ hp)) _ hnext]
    simp

lemma headerWrites_le_one (ups : List (Mode × SummaryRow))
    (htail : ∀ p ∈ ups.tail, p.1 = Mode.append) :
    ∀ sheet : List SheetCell, headerWrites ups sheet ≤ 1 := by
  intro sheet
  cases ups with
  | nil => simp [headerWrites]
  | cons u t =>
    obtain ⟨m, r⟩ := u
    have h0 : headerWrites t (upload_df_to_sheet m [r] sheet) = 0 :=
      headerWrites_append_only t htail _ (upload_ne_nil _ _ _)
    simp only [headerWrites, h0]
    split <;> omega

/-- Claim C1 (a code bug): the orchestrator is supposed to record a week's
failure and continue with the subsequent weeks, never aborting the run; but
in `run()` the `try` block wraps only the `...` (Ellipsis) placeholder, so
its `except`/`continue` handler is dead code and the real week body runs
unprotected.  Concretely: in the scenario `failingPerWeek` (week one's
acquisition times out, week two would succeed on its own — first conjunct),
the run over 1970-01-05..1970-01-18 aborts with the week-one exception
instead of producing a combined output holding week two's row (second
conjunct). -/
theorem c1_week_failure_aborts_run :
    failingPerWeek (11, 17) =
      Except.ok (summarize_channel_csv_to_weekly_row "US" 20000 true [] 11 17) ∧
    runModel (some "store") 4 17 0 false "append" failingPerWeek =
      Except.error (RunErr.weekErr "Timeout 180000ms exceeded") :=
  ⟨rfl, rfl⟩

/-- Claim C2: for `since ≤ until` and a week-start day in 0..6, `iter_weeks`
yields a finite sequence of inclusive ranges whose first start is `since`,
whose last end is `until`, where each range starts one day after the
previous range's end (contiguous, non-overlapping, covering exactly the
interval), and where every range satisfies `start ≤ end` and spans at most
seven calendar days (`end - start ≤ 6`). -/
theorem c2_iter_weeks_partition (since untl ws : ℤ) (h : since ≤ untl)
    (_hws0 : 0 ≤ ws) (_hws6 : ws ≤ 6) :
    ((iter_weeks since untl ws).head?.map Prod.fst = some since) ∧
    ((iter_weeks since untl ws).getLast?.map Prod.snd = some untl) ∧
    List.Chain' (fun a b => b.1 = a.2 + 1) (iter_weeks since untl ws) ∧
    (∀ p ∈ iter_weeks since untl ws, p.1 ≤ p.2 ∧ p.2 - p.1 ≤ 6) :=
  iterWeeksGo_spec ws ((untl + 1 - since).toNat) untl since h (le_refl _)

/-- Witness for C2 at `since = 4`, `until = 17`, `week_start = 0`
(1970-01-05 .. 1970-01-18, Monday weeks). -/
theorem c2_witness :
    ((4:ℤ) ≤ 17 ∧ (0:ℤ) ≤ 0 ∧ (0:ℤ) ≤ 6) ∧
    (((iter_weeks 4 17 0).head?.map Prod.fst = some 4) ∧
     ((iter_weeks 4 17 0).getLast?.map Prod.snd = some 17) ∧
     List.Chain' (fun a b => b.1 = a.2 + 1) (iter_weeks 4 17 0) ∧
     (∀ p ∈ iter_weeks 4 17 0, p.1 ≤ p.2 ∧ p.2 - p.1 ≤ 6)) :=
  ⟨⟨by decide, by decide, by decide⟩,
    c2_iter_weeks_partition 4 17 0 (by decide) (by decide) (by decide)⟩

/-- Claim C3: `bucket_row` is total (a Lean function) and agrees with the
spec's seven-rule first-match classifier on every combination of referring
platform, channel and type — including None, NaN and empty values, which
normalize to the empty string — and in particular
`classify("Direct", "email", "organic")` is the Direct bucket. -/
theorem c3_classifier_matches_spec :
    (∀ rp ch ty : PyVal, bucket_row rp ch ty = bucketLabel (classify_spec rp ch ty)) ∧
    bucket_row (PyVal.str "Direct") (PyVal.str "email") (PyVal.str "organic") =
      bucketLabel Bucket.DirectOrganic := by
  constructor
  · intro rp ch ty
    unfold bucket_row classify_spec
    simp only [normField_eq_safe_lower]
    split_ifs <;> rfl
  · decide

/-- Claim C4: the summary row's GPM field is 0 when the summed (cleaned)
sales are 0, and otherwise equals `(total_sales - total_cost) / total_sales`
rounded to four decimals; the guard means the division by zero never
happens. -/
theorem c4_gpm_guarded (c : String) (t : ℤ) (hc : Bool) (rows : List RawRow) (s e : ℤ) :
    (sumSales (cleanRows hc rows) = 0 →
      (summarize_channel_csv_to_weekly_row c t hc rows s e).gpm = 0) ∧
    (sumSales (cleanRows hc rows) ≠ 0 →
      (summarize_channel_csv_to_weekly_row c t hc rows s e).gpm =
        round4 ((sumSales (cleanRows hc rows) - sumCost hc (cleanRows hc rows)) /
          sumSales (cleanRows hc rows))) := by
  constructor
  · intro h
    simp only [summarize_channel_csv_to_weekly_row]
    rw [if_pos h, round4_zero]
  · intro h
    simp only [summarize_channel_csv_to_weekly_row]
    rw [if_neg h]

/-- Claim C5: `to_number` is total (a Lean function); `None`, NaN, `""`,
`"—"`, `"-"`, `" nan "` and `"None"` all parse to 0.0, `"$1,234.50"` parses
to 1234.50 after stripping `$` and `,`, and any remaining string `float()`
rejects yields 0.0 (final conjunct). -/
theorem c5_to_number_tolerant :
    to_number PyVal.none = 0 ∧
    to_number PyVal.nanFloat = 0 ∧
    to_number (PyVal.str "") = 0 ∧
    to_number (PyVal.str "—") = 0 ∧
    to_number (PyVal.str "-") = 0 ∧
    to_number (PyVal.str " nan ") = 0 ∧
    to_number (PyVal.str "None") = 0 ∧
    to_number (PyVal.str "$1,234.50") = 1234.50 ∧
    (∀ s : String,
      pyFloat? (removeChar ',' (removeChar '$' (pyStrip s))) = Option.none →
        to_number (PyVal.str s) = 0) := by
  refine ⟨rfl, by decide, by decide, by decide, by decide, by decide, by decide, ?_, ?_⟩
  · have h0 : pyParse? (removeChar ',' (removeChar '$' (pyStrip "$1,234.50"))) =
        some (123450, -2) := by decide
    simp only [to_number, pyStr]
    rw [if_neg (by decide), pyFloat?, h0]
    norm_num [ratOfParse]
  · intro s h
    simp only [to_number, pyStr]
    split_ifs with h1
    · rfl
    · rw [h]

/-- Claim C6: the kept misc-notes entries (what `build_misc_notes` joins
with pipes) number at most 12, each kept `(channel, type)` sub-group has
strictly positive summed sales, they are ordered descending by summed sales,
each kept entry really is one of the sub-group sums, and when no sub-group
has positive sales the notes string is empty. -/
theorem c6_misc_notes_shape (rs : List RawRow) :
    (miscKept rs).length ≤ 12 ∧
    (∀ p ∈ miscKept rs, 0 < p.2) ∧
    (miscKept rs).Pairwise (fun a b => b.2 ≤ a.2) ∧
    (∀ p ∈ miscKept rs, p ∈ miscGroups rs) ∧
    ((∀ p ∈ miscGroups rs, p.2 ≤ 0) → build_misc_notes rs = "") := by
  refine ⟨?_, ?_, ?_, ?_, ?_⟩
  · calc (miscKept rs).length ≤ (miscTop rs).length := List.length_filter_le _ _
      _ ≤ 12 := by
        simp [miscTop]
  · intro p hp
    exact of_decide_eq_true (List.mem_filter.mp hp).2
  · have hs : (sortBy salesDescLe (miscGroups rs)).Pairwise
        (fun a b : String × ℚ => b.2 ≤ a.2) := by
      refine pairwise_sortBy ?_ ?_ ?_ _
      · intro x y h
        exact of_decide_eq_true h
      · intro x y h
        exact le_of_not_le (of_decide_eq_false h)
      · intro x y z h1 h2
        exact le_trans h2 h1
    exact (hs.sublist (List.take_sublist _ _)).filter _
  · intro p hp
    exact mem_miscTop_groups rs p (List.mem_filter.mp hp).1
  · intro hall
    have hnil : miscKept rs = [] := by
      rw [miscKept, List.filter_eq_nil_iff]
      intro p hp
      have h0 := hall p (mem_miscTop_groups rs p hp)
      simpa using h0
    rw [build_misc_notes, hnil]
    rfl

/-- Claim C7: with a store slug configured and `until < since`, the run
fails with the invalid-range error — for every acquisition oracle, i.e.
before any acquisition is attempted — matching the `raise ValueError`
performed by `run()` ahead of the week loop. -/
theorem c7_invalid_range_fatal (slug : String) (since untl ws : ℤ)
    (uploadToSheet : Bool) (sheetMode : String)
    (perWeek : ℤ × ℤ → Except RunErr SummaryRow) (h : untl < since) :
    runModel (some slug) since untl ws uploadToSheet sheetMode perWeek =
      Except.error RunErr.invalidRange := by
  simp only [runModel]
  rw [if_pos h]

/-- Witness for C7: an inverted range (since 1970-01-06, until 1970-01-04)
with an oracle that would report any acquisition attempt as a week error. -/
theorem c7_witness :
    (3:ℤ) < 5 ∧
    runModel (some "shopstore") 5 3 0 true "append"
      (fun _ => Except.error (RunErr.weekErr "acquired")) =
        Except.error RunErr.invalidRange :=
  ⟨by decide, c7_invalid_range_fatal "shopstore" 5 3 0 true "append" _ (by decide)⟩

/-- Claim C8: in a successful run with sheet upload enabled, at most one
overwrite upload occurs; every upload after the first is an append; an
overwrite can only be the first upload and only when the configured mode is
"overwrite"; and, starting from any prior tab contents, the run's uploads
write the header row at most once (append writes it only into an empty
tab). -/
theorem c8_single_overwrite_per_run (slug : String) (since untl ws : ℤ) (sheetMode : String)
    (perWeek : ℤ × ℤ → Except RunErr SummaryRow) (rows : List SummaryRow)
    (ups : List (Mode × SummaryRow))
    (h : runModel (some slug) since untl ws true sheetMode perWeek = Except.ok (rows, ups)) :
    ((ups.map Prod.fst).count Mode.overwrite ≤ 1) ∧
    (∀ p ∈ ups.tail, p.1 = Mode.append) ∧
    (Mode.overwrite ∈ ups.map Prod.fst →
      ups.head?.map Prod.fst = some Mode.overwrite ∧ sheetMode = "overwrite") ∧
    (∀ sheet : List SheetCell, headerWrites ups sheet ≤ 1) := by
  simp only [runModel] at h
  by_cases hr : untl < since
  · rw [if_pos hr] at h
    simp at h
  · rw [if_neg hr] at h
    have hshape := runLoop_uploads_shape perWeek (sheetMode == "overwrite") _ rows ups h
    rcases hshape with hnil | ⟨r, tail, hcons, htail⟩
    · subst hnil
      exact ⟨by simp, by simp, by simp, fun sheet => by simp [headerWrites]⟩
    · subst hcons
      have htl : ∀ p ∈ ((if (sheetMode == "overwrite") then Mode.overwrite
          else Mode.append, r) :: tail).tail, p.1 = Mode.append := by
        simpa using htail
      have hnot : Mode.overwrite ∉ tail.map Prod.fst := by
        intro hx
        obtain ⟨p, hp, hpe⟩ := List.mem_map.mp hx
        rw [htail p hp] at hpe
        exact Mode.noConfusion hpe
      refine ⟨?_, htl, ?_, headerWrites_le_one _ htl⟩
      · simp only [List.map_cons, List.count_cons]
        have hzero : (tail.map Prod.fst).count Mode.overwrite = 0 :=
          List.count_eq_zero.mpr hnot
        rw [hzero]
        split <;> simp
      · intro hmem
        have hmem2 : Mode.overwrite = (if (sheetMode == "overwrite") then Mode.overwrite
            else Mode.append) ∨ Mode.overwrite ∈ tail.map Prod.fst := by
          simpa using hmem
        have hm0 := hmem2.resolve_right hnot
        by_cases hb : (sheetMode == "overwrite") = true
        · constructor
          · simp [hb]
          · exact eq_of_beq hb
        · rw [if_neg hb] at hm0
          exact absurd hm0 (by simp)

/-- Witness for C8: a two-week run in overwrite mode whose uploads are
exactly one overwrite followed by one append. -/
theorem c8_witness :
    runModel (some "store1") 4 17 0 true "overwrite" (fun _ => Except.ok sampleRow) =
      Except.ok ([sampleRow, sampleRow],
        [(Mode.overwrite, sampleRow), (Mode.append, sampleRow)]) ∧
    (([(Mode.overwrite, sampleRow), (Mode.append, sampleRow)].map Prod.fst).count
        Mode.overwrite ≤ 1) :=
  ⟨rfl, (c8_single_overwrite_per_run "store1" 4 17 0 "overwrite"
      (fun _ => Except.ok sampleRow) [sampleRow, sampleRow]
      [(Mode.overwrite, sampleRow), (Mode.append, sampleRow)] rfl).1⟩

/-- Counterexample to claim C9 as stated: the aggregator's `Upload_Date`
field comes from `datetime.now()`, not from the raw rows or the week, so two
runs of the aggregator on the same row set ([], an empty CSV body) and the
same week (1970-01-05..1970-01-11) performed on different wall-clock dates
(day 0 and day 1) produce different summary rows. -/
theorem c9_counterexample :
    summarize_channel_csv_to_weekly_row "US" 0 true [] 4 10 ≠
      summarize_channel_csv_to_weekly_row "US" 1 true [] 4 10 := by
  intro h
  have h2 := congrArg SummaryRow.uploadDate h
  simp only [summarize_channel_csv_to_weekly_row] at h2
  exact absurd h2 (by decide)

/-- Claim C9 as amended: re-running the aggregator on the same raw row set
and week produces rows identical in every field except `Upload_Date` (first
conjunct), and fully identical rows whenever the two runs happen on the same
wall-clock date (second conjunct). -/
theorem c9_deterministic_up_to_upload_date (c : String) (t1 t2 : ℤ) (hc : Bool)
    (rows : List RawRow) (s e : ℤ) :
    eraseUploadDate (summarize_channel_csv_to_weekly_row c t1 hc rows s e) =
      eraseUploadDate (summarize_channel_csv_to_weekly_row c t2 hc rows s e) ∧
    (t1 = t2 → summarize_channel_csv_to_weekly_row c t1 hc rows s e =
      summarize_channel_csv_to_weekly_row c t2 hc rows s e) := by
  constructor
  · rfl
  · intro h; rw [h]

/-- Claim C10: `iter_weeks` itself performs no range validation — on an
inverted range (`until < since`) it yields the empty sequence (and, being a
total Lean function, raises nothing); the `until < since` check is done only
by `run()` before iterating (see the C7 theorem). -/
theorem c10_iter_weeks_inverted_empty (since untl ws : ℤ) (h : untl < since) :
    iter_weeks since untl ws = [] := by
  unfold iter_weeks
  have h0 : (untl + 1 - since).toNat = 0 := by omega
  rw [h0]
  rfl

/-- Witness for C10: the inverted range since 1970-01-02, until 1970-01-01. -/
theorem c10_witness : (0:ℤ) < 1 ∧ iter_weeks 1 0 3 = [] :=
  ⟨by decide, c10_iter_weeks_inverted_empty 1 0 3 (by decide)⟩
